import Mathlib

/-
Shallow embedding of the 6502-style CPU core in src/cpu.rs and a
verification of its documented behaviour.

Machine integers are modelled as Nat with explicit reductions:
an 8-bit wrapping operation is `% 256`, a 16-bit one is `% 65536`.
Rust panics (out-of-bounds indexing of the memory array, the
unreachable addressing-mode arm) are modelled by `Except Fault`.
The memory array of the source is declared `[u8; 0xFFFF]`, i.e. it
has 0xFFFF = 65535 entries, so the valid indices are 0 .. 0xFFFE;
this bound is kept exactly as written.
-/

set_option maxRecDepth 8192

namespace Emu

/-- Addressing-mode tags, mirroring `enum AddressingMode` of the source. -/
inductive AddressingMode : Type where
  | Immediate
  | ZeroPage
  | ZeroPage_X
  | ZeroPage_Y
  | Absolute
  | Absolute_X
  | Absolute_Y
  | Indirect_X
  | Indirect_Y
  | NoneAddressing
deriving DecidableEq, Repr

/-- Faults of the source code: a panicking array index, or the resolver
invoked with the unsupported addressing mode. -/
inductive Fault : Type where
  | outOfBounds (addr : Nat)
  | unsupportedMode (mode : AddressingMode)
deriving DecidableEq, Repr

/-- CPU state: the struct `CPU` of the source. Registers are u8 values,
the program counter a u16 value, the status byte packs the eight flags,
and memory is the `[u8; 0xFFFF]` array, modelled as a function. -/
structure CPU : Type where
  register_a : Nat
  register_x : Nat
  register_y : Nat
  status : Nat
  program_counter : Nat
  memory : Nat → Nat

namespace StatusFlags

/-- Carry flag bit, `0b00000001`. -/
def CARRY : Nat := 0x01

/-- Zero flag bit, `0b00000010`. -/
def ZERO : Nat := 0x02

/-- Interrupt-disable flag bit, `0b00000100`. -/
def INTERRUPT_DISABLE : Nat := 0x04

/-- Decimal-mode flag bit, `0b00001000`. -/
def DECIMAL_MODE : Nat := 0x08

/-- Break flag bit, `0b00010000`. -/
def BREAK : Nat := 0x10

/-- Second break flag bit, `0b00100000`. -/
def BREAK2 : Nat := 0x20

/-- Overflow flag bit, `0b01000000`. -/
def OVERFLOW : Nat := 0x40

/-- Negative flag bit, `0b10000000`. -/
def NEGATIVE : Nat := 0x80

end StatusFlags

/-- Bitflags `insert`: set the bits of `f` in `s`. -/
def insertFlag (s f : Nat) : Nat := s ||| f

/-- Bitflags `remove`: clear the bits of `f` in `s` (`bits & !f` on u8). -/
def removeFlag (s f : Nat) : Nat := s &&& (f ^^^ 0xFF)

/-- Bitflags `contains`: all bits of `f` are set in `s`. -/
def containsFlag (s f : Nat) : Bool := s &&& f == f

/-- Length of the memory array: the source declares `memory: [u8; 0xFFFF]`,
so there are 0xFFFF = 65535 entries. -/
def MEMSIZE : Nat := 0xFFFF

/-- Constructor `CPU::new`: zeroed registers and memory, status byte
`0b100100` (from_bits_truncate keeps all six defined bits). -/
def CPU.new : CPU :=
  { register_a := 0
    register_x := 0
    register_y := 0
    status := 0b100100
    program_counter := 0
    memory := fun _ => 0 }

/-- Method `mem_read`: `self.memory[addr as usize]`; indexing the array of
length MEMSIZE panics when `addr ≥ MEMSIZE`. -/
def mem_read (cpu : CPU) (addr : Nat) : Except Fault Nat :=
  if addr < MEMSIZE then Except.ok (cpu.memory addr)
  else Except.error (Fault.outOfBounds addr)

/-- Method `mem_write`: `self.memory[addr as usize] = data`, same bound. -/
def mem_write (cpu : CPU) (addr data : Nat) : Except Fault CPU :=
  if addr < MEMSIZE then
    Except.ok { cpu with memory := fun i => if i = addr then data else cpu.memory i }
  else Except.error (Fault.outOfBounds addr)

/-- Method `mem_read_u16`: little-endian composition
`(hi << 8) | lo` of the bytes at `pos` and `pos + 1`. -/
def mem_read_u16 (cpu : CPU) (pos : Nat) : Except Fault Nat := do
  let lo ← mem_read cpu pos
  let hi ← mem_read cpu (pos + 1)
  pure ((hi <<< 8) ||| lo)

/-- Method `mem_write_u16`: store `data & 0xFF` at `addr` and `data >> 8`
at `addr + 1` (each cast to u8, hence the `% 256`). -/
def mem_write_u16 (cpu : CPU) (addr data : Nat) : Except Fault CPU := do
  let hi := (data >>> 8) % 256
  let lo := (data &&& 0xFF) % 256
  let cpu1 ← mem_write cpu addr lo
  mem_write cpu1 (addr + 1) hi

/-- Method `update_zero_and_negative_flags`: sets or clears ZERO from
`register_a == 0` and NEGATIVE from `register_a & 0b1000_0000 != 0`.
It always reads `register_a`, whichever register the caller modified. -/
def update_zero_and_negative_flags (cpu : CPU) : CPU :=
  let s1 := if cpu.register_a = 0 then insertFlag cpu.status StatusFlags.ZERO
            else removeFlag cpu.status StatusFlags.ZERO
  let s2 := if cpu.register_a &&& 0b10000000 ≠ 0 then insertFlag s1 StatusFlags.NEGATIVE
            else removeFlag s1 StatusFlags.NEGATIVE
  { cpu with status := s2 }

/-- Method `set_carry_flag`. -/
def set_carry_flag (cpu : CPU) : CPU :=
  { cpu with status := insertFlag cpu.status StatusFlags.CARRY }

/-- Method `unset_carry_flag`. -/
def unset_carry_flag (cpu : CPU) : CPU :=
  { cpu with status := removeFlag cpu.status StatusFlags.CARRY }

/-- Handler `inx`: `register_x.wrapping_add(1)`, then the flag update. -/
def inx (cpu : CPU) : CPU :=
  update_zero_and_negative_flags { cpu with register_x := (cpu.register_x + 1) % 256 }

/-- Handler `tax`: copy `register_a` into `register_x`, then the flag update. -/
def tax (cpu : CPU) : CPU :=
  update_zero_and_negative_flags { cpu with register_x := cpu.register_a }

/-- Resolver `get_operand_address`, one arm per addressing mode, exactly
as in the source; the `NoneAddressing` arm is the panicking catch-all. -/
def get_operand_address (cpu : CPU) (mode : AddressingMode) : Except Fault Nat :=
  match mode with
  | AddressingMode.Immediate => Except.ok cpu.program_counter
  | AddressingMode.ZeroPage => mem_read cpu cpu.program_counter
  | AddressingMode.Absolute => mem_read_u16 cpu cpu.program_counter
  | AddressingMode.ZeroPage_X => do
      let pos ← mem_read cpu cpu.program_counter
      pure ((pos + cpu.register_x) % 256)
  | AddressingMode.ZeroPage_Y => do
      let pos ← mem_read cpu cpu.program_counter
      pure ((pos + cpu.register_y) % 256)
  | AddressingMode.Absolute_X => do
      let pos ← mem_read_u16 cpu cpu.program_counter
      pure ((pos + cpu.register_x) % 65536)
  | AddressingMode.Absolute_Y => do
      let pos ← mem_read_u16 cpu cpu.program_counter
      pure ((pos + cpu.register_y) % 65536)
  | AddressingMode.Indirect_X => do
      let base ← mem_read cpu cpu.program_counter
      let ptr := (base + cpu.register_x) % 256
      let lo ← mem_read cpu ptr
      let hi ← mem_read cpu ((ptr + 1) % 256)
      pure ((hi <<< 8) ||| lo)
  | AddressingMode.Indirect_Y => do
      let base ← mem_read cpu cpu.program_counter
      let ptr := (base + cpu.register_y) % 256
      let lo ← mem_read cpu ptr
      let hi ← mem_read cpu ((ptr + 1) % 256)
      pure ((hi <<< 8) ||| lo)
  | AddressingMode.NoneAddressing =>
      Except.error (Fault.unsupportedMode AddressingMode.NoneAddressing)

/-- Handler `lda`: load the byte at the resolved address into the
accumulator, then the flag update. -/
def lda (cpu : CPU) (mode : AddressingMode) : Except Fault CPU := do
  let addr ← get_operand_address cpu mode
  let value ← mem_read cpu addr
  pure (update_zero_and_negative_flags { cpu with register_a := value })

/-- Handler `sta`: store the accumulator at the resolved address. -/
def sta (cpu : CPU) (mode : AddressingMode) : Except Fault CPU := do
  let addr ← get_operand_address cpu mode
  mem_write cpu addr cpu.register_a

/-- Handler `adc`: `result = a + value + carry-in` computed in u16 width,
carry-out iff `result > 0xFF`, accumulator gets `result as u8`, then the
flag update. -/
def adc (cpu : CPU) (mode : AddressingMode) : Except Fault CPU := do
  let addr ← get_operand_address cpu mode
  let value ← mem_read cpu addr
  let result := cpu.register_a + value +
    (if containsFlag cpu.status StatusFlags.CARRY then 1 else 0)
  let cpu1 := if result > 0xFF then set_carry_flag cpu else unset_carry_flag cpu
  pure (update_zero_and_negative_flags { cpu1 with register_a := result % 256 })

/-- Method `reset`: zero the accumulator and index-X, restore the status
byte `0b100100` (from_bits_retain), then load the program counter from
the reset vector at 0xFFFC. Index-Y and memory are not touched. -/
def reset (cpu : CPU) : Except Fault CPU := do
  let cpu1 := { cpu with register_a := 0, register_x := 0, status := 0b100100 }
  let pc ← mem_read_u16 cpu1 0xFFFC
  pure { cpu1 with program_counter := pc }

/-- Slice copy of `load`: `memory[0x8000 .. 0x8000 + len] = program`,
expressed pointwise. -/
def copySlice (m : Nat → Nat) (start : Nat) (prog : List Nat) : Nat → Nat :=
  fun i => if start ≤ i ∧ i < start + prog.length then prog.getD (i - start) 0 else m i

/-- Method `load`: copy the program image to origin 0x8000 (the slice
`memory[0x8000 .. 0x8000 + len]` panics when its end exceeds MEMSIZE),
then write 0x8000 little-endian into the reset vector at 0xFFFC. -/
def load (cpu : CPU) (program : List Nat) : Except Fault CPU :=
  if 0x8000 + program.length ≤ MEMSIZE then
    mem_write_u16 { cpu with memory := copySlice cpu.memory 0x8000 program } 0xFFFC 0x8000
  else Except.error (Fault.outOfBounds (0x8000 + program.length))

/-- Indirect_Y resolution as the specification words it: dereference the
zero-page pointer read at the program counter (no index added) to a
16-bit base (low byte at the pointer, high byte one above it within page
zero), then add index-Y to that 16-bit base with 16-bit wrap. Stated for
comparison with `get_operand_address`. -/
def indirect_y_architectural (cpu : CPU) : Except Fault Nat := do
  let base ← mem_read cpu cpu.program_counter
  let lo ← mem_read cpu (base % 256)
  let hi ← mem_read cpu ((base % 256 + 1) % 256)
  pure ((((hi <<< 8) ||| lo) + cpu.register_y) % 65536)

/-- Concrete state probing `Indirect_Y`: index-Y = 1, the zero-page
pointer byte at the program counter is 0x10, and page zero holds the
word 0x0500 at 0x10 while the byte at 0x11 is 5 and at 0x12 is 0. -/
def cpuIndY : CPU :=
  { register_a := 0
    register_x := 0
    register_y := 1
    status := 0
    program_counter := 0
    memory := fun i => if i = 0 then 0x10 else if i = 0x11 then 5 else 0 }

/-- Concrete state probing `inx`: accumulator 5, index-X 0xFF, all
flags clear. -/
def cpuInx : CPU :=
  { register_a := 5
    register_x := 0xFF
    register_y := 0
    status := 0
    program_counter := 0
    memory := fun _ => 0 }

/-- Concrete state probing `adc`: accumulator 0x50, Carry clear (status
is the power-on byte 0b100100), and the immediate operand byte 0x50 at
the program counter. -/
def cpuAdc : CPU :=
  { register_a := 0x50
    register_x := 0
    register_y := 0
    status := 0b100100
    program_counter := 0
    memory := fun i => if i = 0 then 0x50 else 0 }

/-- Concrete state probing `lda`: the immediate operand byte 0x80 at the
program counter. -/
def cpuLda : CPU :=
  { register_a := 0
    register_x := 0
    register_y := 0
    status := 0
    program_counter := 0
    memory := fun i => if i = 0 then 0x80 else 0 }

/- Bitwise helper lemmas shared by the flag proofs. -/

theorem or_and_cancel (s f : Nat) : (s ||| f) &&& f = f := by
  apply Nat.eq_of_testBit_eq
  intro i
  simp only [Nat.testBit_and, Nat.testBit_or]
  cases hf : f.testBit i <;> simp [hf]

theorem or_and_of_disjoint (s : Nat) {f g : Nat} (h : f &&& g = 0) :
    (s ||| f) &&& g = s &&& g := by
  apply Nat.eq_of_testBit_eq
  intro i
  have hfg : (f &&& g).testBit i = false := by rw [h]; simp
  simp only [Nat.testBit_and, Nat.testBit_or] at hfg ⊢
  cases hs : s.testBit i <;> cases hf : f.testBit i <;> cases hg : g.testBit i <;>
    simp_all

theorem and_right_comm (s a b : Nat) : (s &&& a) &&& b = s &&& (a &&& b) :=
  Nat.and_assoc s a b

/- Characterization of the status byte produced by
`update_zero_and_negative_flags`: the ZERO bit, the NEGATIVE bit, and
preservation of every bit disjoint from both. -/

theorem uznf_zero_bit (cpu : CPU) :
    (update_zero_and_negative_flags cpu).status &&& StatusFlags.ZERO =
      if cpu.register_a = 0 then StatusFlags.ZERO else 0 := by
  unfold update_zero_and_negative_flags insertFlag removeFlag StatusFlags.ZERO
    StatusFlags.NEGATIVE
  by_cases h0 : cpu.register_a = 0
  · have hneg : ¬(cpu.register_a &&& 0b10000000 ≠ 0) := by rw [h0]; decide
    simp only [if_pos h0, if_neg hneg]
    rw [and_right_comm, (by decide : (128 ^^^ 255) &&& 2 = 2), or_and_cancel]
  · by_cases h7 : cpu.register_a &&& 0b10000000 ≠ 0
    · simp only [if_neg h0, if_pos h7]
      rw [or_and_of_disjoint _ (by decide : 128 &&& 2 = 0), and_right_comm,
        (by decide : (2 ^^^ 255) &&& 2 = 0), Nat.and_zero]
    · simp only [if_neg h0, if_neg h7]
      rw [and_right_comm, and_right_comm,
        (by decide : (2 ^^^ 255) &&& ((128 ^^^ 255) &&& 2) = 0), Nat.and_zero]

theorem uznf_negative_bit (cpu : CPU) :
    (update_zero_and_negative_flags cpu).status &&& StatusFlags.NEGATIVE =
      if cpu.register_a &&& 0b10000000 ≠ 0 then StatusFlags.NEGATIVE else 0 := by
  unfold update_zero_and_negative_flags insertFlag removeFlag StatusFlags.ZERO
    StatusFlags.NEGATIVE
  by_cases h7 : cpu.register_a &&& 0b10000000 ≠ 0
  · simp only [if_pos h7]
    rw [or_and_cancel]
  · simp only [if_neg h7]
    rw [and_right_comm, (by decide : (128 ^^^ 255) &&& 128 = 0), Nat.and_zero]

theorem uznf_other_bit (cpu : CPU) {g : Nat}
    (hz : 2 &&& g = 0) (hn : 128 &&& g = 0)
    (hrz : (2 ^^^ 255) &&& g = g) (hrn : (128 ^^^ 255) &&& g = g) :
    (update_zero_and_negative_flags cpu).status &&& g = cpu.status &&& g := by
  unfold update_zero_and_negative_flags insertFlag removeFlag StatusFlags.ZERO
    StatusFlags.NEGATIVE
  by_cases h0 : cpu.register_a = 0
  · have hneg : ¬(cpu.register_a &&& 0b10000000 ≠ 0) := by rw [h0]; decide
    simp only [if_pos h0, if_neg hneg]
    rw [and_right_comm, hrn, or_and_of_disjoint _ hz]
  · by_cases h7 : cpu.register_a &&& 0b10000000 ≠ 0
    · simp only [if_neg h0, if_pos h7]
      rw [or_and_of_disjoint _ hn, and_right_comm, hrz]
    · simp only [if_neg h0, if_neg h7]
      rw [and_right_comm, hrn, and_right_comm, hrz]

theorem uznf_register_a (cpu : CPU) :
    (update_zero_and_negative_flags cpu).register_a = cpu.register_a := rfl

theorem uznf_other_regs (cpu : CPU) :
    (update_zero_and_negative_flags cpu).register_x = cpu.register_x ∧
    (update_zero_and_negative_flags cpu).register_y = cpu.register_y ∧
    (update_zero_and_negative_flags cpu).program_counter = cpu.program_counter ∧
    (update_zero_and_negative_flags cpu).memory = cpu.memory :=
  ⟨rfl, rfl, rfl, rfl⟩

theorem containsFlag_of_and_eq (s f : Nat) (h : s &&& f = f) :
    containsFlag s f = true := by
  simp [containsFlag, h]

theorem containsFlag_false_of_and_zero {s f : Nat} (h : s &&& f = 0) (hf : f ≠ 0) :
    containsFlag s f = false := by
  simp [containsFlag, h]
  omega

theorem containsFlag_iff_bit {s f : Nat} (hf : f ≠ 0) (P : Prop) [Decidable P]
    (h : s &&& f = if P then f else 0) :
    containsFlag s f = decide P := by
  by_cases hP : P
  · rw [if_pos hP] at h
    simp [containsFlag_of_and_eq _ _ h, hP]
  · rw [if_neg hP] at h
    simp [containsFlag_false_of_and_zero h hf, hP]

theorem shiftLeft8_or_add {hi lo : Nat} (h : lo < 256) :
    (hi <<< 8) ||| lo = 256 * hi + lo := by
  have h2 : lo < 2 ^ 8 := h
  apply Nat.eq_of_testBit_eq
  intro j
  rw [Nat.testBit_or, (by norm_num : (256 : Nat) * hi + lo = 2 ^ 8 * hi + lo),
    Nat.testBit_mul_pow_two_add hi h2 j, Nat.testBit_shiftLeft]
  by_cases hj : j < 8
  · rw [if_pos hj]
    have h8 : ¬(8 ≤ j) := by omega
    simp [h8]
  · rw [if_neg hj]
    have h8 : 8 ≤ j := by omega
    have hlo : lo.testBit j = false :=
      Nat.testBit_lt_two_pow (lt_of_lt_of_le h2 (Nat.pow_le_pow_right (by norm_num) h8))
    simp [h8, hlo]

theorem and_255_eq_mod (x : Nat) : x &&& 255 = x % 256 := by
  have h := Nat.and_pow_two_sub_one_eq_mod x 8
  norm_num at h
  exact h

theorem shiftRight8_eq_div (x : Nat) : x >>> 8 = x / 256 := by
  have h := Nat.shiftRight_eq_div_pow x 8
  norm_num at h
  exact h

theorem except_bind_ok {α β : Type} (a : α) (f : α → Except Fault β) :
    (Except.ok a : Except Fault α) >>= f = f a := rfl

theorem except_pure {α : Type} (a : α) : (pure a : Except Fault α) = Except.ok a := rfl

theorem mem_read_lt {cpu : CPU} {p : Nat} (hp : p < MEMSIZE) :
    mem_read cpu p = Except.ok (cpu.memory p) := by
  unfold mem_read
  rw [if_pos hp]

theorem mod256_lt_MEMSIZE (x : Nat) : x % 256 < MEMSIZE := by
  unfold MEMSIZE
  omega

/-- C9: for every CPU state, invoking the addressing-mode resolver with
the mode that has no defined effective address (NoneAddressing, the
Implied tag) is a fault carrying the offending mode and yields no
effective address. -/
theorem resolver_rejects_none_addressing (cpu : CPU) :
    get_operand_address cpu AddressingMode.NoneAddressing =
      Except.error (Fault.unsupportedMode AddressingMode.NoneAddressing) := rfl

/-- C1: evaluation of the code at the failing input. The memory array is
declared with 0xFFFF = 65535 entries, so address 0xFFFF is out of
bounds: mem_read and mem_write fault there (while the addresses up to
0xFFFE succeed, as the read at 0xFFFE shows). This refutes the claim
that every 16-bit address, in particular 0xFFFF, is a valid index. -/
theorem mem_access_top_address_faults :
    mem_read CPU.new 0xFFFF = Except.error (Fault.outOfBounds 0xFFFF) ∧
    mem_write CPU.new 0xFFFF 0 = Except.error (Fault.outOfBounds 0xFFFF) ∧
    mem_read CPU.new 0xFFFE = Except.ok 0 :=
  ⟨rfl, rfl, rfl⟩

/-- C4 counterexample: the status byte of the constructed CPU is 0b100100, not 0,
so the claim that all eight flags start cleared fails. -/
theorem new_status_not_zero : CPU.new.status = 0b100100 ∧ CPU.new.status ≠ 0 :=
  ⟨rfl, by decide⟩

/-- C4 amended: the constructor produces a CPU whose accumulator, index
registers and program counter are zero and whose memory bytes are all
zero, while the status byte equals 0b100100: InterruptDisable and Break2
are set and the other six flags are clear. -/
theorem new_zeroed_with_default_status :
    CPU.new.register_a = 0 ∧ CPU.new.register_x = 0 ∧ CPU.new.register_y = 0 ∧
    CPU.new.program_counter = 0 ∧ (∀ i, CPU.new.memory i = 0) ∧
    CPU.new.status = 0b100100 ∧
    containsFlag CPU.new.status StatusFlags.INTERRUPT_DISABLE = true ∧
    containsFlag CPU.new.status StatusFlags.BREAK2 = true ∧
    containsFlag CPU.new.status StatusFlags.CARRY = false ∧
    containsFlag CPU.new.status StatusFlags.ZERO = false ∧
    containsFlag CPU.new.status StatusFlags.DECIMAL_MODE = false ∧
    containsFlag CPU.new.status StatusFlags.BREAK = false ∧
    containsFlag CPU.new.status StatusFlags.OVERFLOW = false ∧
    containsFlag CPU.new.status StatusFlags.NEGATIVE = false := by
  refine ⟨rfl, rfl, rfl, rfl, fun i => rfl, rfl, ?_, ?_, ?_, ?_, ?_, ?_, ?_, ?_⟩ <;> decide

/-- C3 counterexample: from accumulator 5 and index-X 0xFF, IncrementX
wraps index-X to 0 yet leaves the Zero flag clear, because the flag
update reads the accumulator; the claim that Zero is set iff the new
index-X is 0 fails at this state. -/
theorem inx_flags_ignore_x :
    (inx cpuInx).register_x = 0 ∧
    containsFlag (inx cpuInx).status StatusFlags.ZERO = false :=
  ⟨rfl, by decide⟩

/-- C3 amended: IncrementX sets index-X to its old value plus one with
8-bit wraparound, but the flag update then reads the accumulator: the
Zero flag is set iff the (unchanged) accumulator is 0 and the Negative
flag iff bit 7 of the accumulator is set; the accumulator, index-Y,
program counter and memory are untouched. -/
theorem inx_increments_x_flags_from_accumulator (cpu : CPU) :
    (inx cpu).register_x = (cpu.register_x + 1) % 256 ∧
    (inx cpu).register_a = cpu.register_a ∧
    (inx cpu).register_y = cpu.register_y ∧
    (inx cpu).program_counter = cpu.program_counter ∧
    (inx cpu).memory = cpu.memory ∧
    containsFlag (inx cpu).status StatusFlags.ZERO = decide (cpu.register_a = 0) ∧
    containsFlag (inx cpu).status StatusFlags.NEGATIVE =
      decide (cpu.register_a &&& 0b10000000 ≠ 0) := by
  refine ⟨rfl, rfl, rfl, rfl, rfl, ?_, ?_⟩
  · exact containsFlag_iff_bit (by decide) _
      (uznf_zero_bit { cpu with register_x := (cpu.register_x + 1) % 256 })
  · exact containsFlag_iff_bit (by decide) _
      (uznf_negative_bit { cpu with register_x := (cpu.register_x + 1) % 256 })

/-- C2 counterexample: with index-Y = 1, the zero-page pointer byte 0x10
at the program counter and the word 0x0500 stored at 0x10, the resolver
yields 0x0005 (it dereferences at pointer + Y), while the architectural
semantics of the claim — dereference first, add Y to the 16-bit base —
yields 0x0501; the claim fails at this state. -/
theorem indirect_y_differs_from_architectural :
    get_operand_address cpuIndY AddressingMode.Indirect_Y = Except.ok 0x0005 ∧
    indirect_y_architectural cpuIndY = Except.ok 0x0501 ∧
    get_operand_address cpuIndY AddressingMode.Indirect_Y ≠
      indirect_y_architectural cpuIndY := by
  have h1 : get_operand_address cpuIndY AddressingMode.Indirect_Y = Except.ok 0x0005 := rfl
  have h2 : indirect_y_architectural cpuIndY = Except.ok 0x0501 := rfl
  refine ⟨h1, h2, ?_⟩
  rw [h1, h2]
  intro h
  exact absurd (Except.ok.inj h) (by norm_num)

/-- C2 amended: the Indirect_Y arm of the resolver adds index-Y to the zero-page
pointer byte before dereferencing — identically to Indirect_X with Y in
place of X: with ptr = (byte at program counter + Y) mod 256 it returns
the little-endian word whose low byte is at ptr and whose high byte is
at (ptr + 1) mod 256; no 16-bit add of Y to a dereferenced base occurs. -/
theorem indirect_y_adds_y_before_deref (cpu : CPU)
    (hpc : cpu.program_counter < MEMSIZE) :
    get_operand_address cpu AddressingMode.Indirect_Y =
      Except.ok
        ((cpu.memory (((cpu.memory cpu.program_counter + cpu.register_y) % 256 + 1) % 256) <<< 8) |||
          cpu.memory ((cpu.memory cpu.program_counter + cpu.register_y) % 256)) ∧
    get_operand_address cpu AddressingMode.Indirect_Y =
      get_operand_address { cpu with register_x := cpu.register_y }
        AddressingMode.Indirect_X := by
  constructor
  · simp only [get_operand_address, mem_read_lt hpc, except_bind_ok,
      mem_read_lt (mod256_lt_MEMSIZE _), except_pure]
  · rfl

/-- C2 amended, witness at the concrete state cpuIndY. -/
theorem indirect_y_adds_y_before_deref_witness :
    cpuIndY.program_counter < MEMSIZE ∧
    get_operand_address cpuIndY AddressingMode.Indirect_Y =
      get_operand_address { cpuIndY with register_x := cpuIndY.register_y }
        AddressingMode.Indirect_X :=
  ⟨by decide, (indirect_y_adds_y_before_deref cpuIndY (by decide)).2⟩

/-- C6: for every byte v, Immediate-mode LoadAccumulator with operand
byte v (the byte at the program counter) sets the accumulator to v, the
Zero flag iff v = 0 and the Negative flag iff v AND 0x80 is nonzero. -/
theorem lda_immediate_loads_operand (cpu : CPU) (v : Nat)
    (hpc : cpu.program_counter < MEMSIZE)
    (hv : cpu.memory cpu.program_counter = v) :
    ∃ cpu2, lda cpu AddressingMode.Immediate = Except.ok cpu2 ∧
      cpu2.register_a = v ∧
      containsFlag cpu2.status StatusFlags.ZERO = decide (v = 0) ∧
      containsFlag cpu2.status StatusFlags.NEGATIVE =
        decide (v &&& 0b10000000 ≠ 0) := by
  have h1 : get_operand_address cpu AddressingMode.Immediate =
      Except.ok cpu.program_counter := rfl
  refine ⟨update_zero_and_negative_flags { cpu with register_a := v }, ?_, rfl, ?_, ?_⟩
  · simp only [lda, h1, except_bind_ok, mem_read_lt hpc, hv, except_pure]
  · exact containsFlag_iff_bit (by decide) _
      (uznf_zero_bit { cpu with register_a := v })
  · exact containsFlag_iff_bit (by decide) _
      (uznf_negative_bit { cpu with register_a := v })

/-- C6 witness at the concrete state cpuLda with operand byte 0x80. -/
theorem lda_immediate_loads_operand_witness :
    cpuLda.program_counter < MEMSIZE ∧
    cpuLda.memory cpuLda.program_counter = 0x80 ∧
    ∃ cpu2, lda cpuLda AddressingMode.Immediate = Except.ok cpu2 ∧
      cpu2.register_a = 0x80 ∧
      containsFlag cpu2.status StatusFlags.ZERO = decide ((0x80 : Nat) = 0) ∧
      containsFlag cpu2.status StatusFlags.NEGATIVE =
        decide ((0x80 : Nat) &&& 0b10000000 ≠ 0) :=
  ⟨by decide, rfl, lda_immediate_loads_operand cpuLda 0x80 (by decide) rfl⟩

/-- C5: AddWithCarry computes sum = accumulator + operand byte + carry-in
in a width wider than 8 bits, sets Carry iff sum > 255 and clears it
otherwise, stores sum truncated to 8 bits in the accumulator, and sets
Zero iff the new accumulator is 0 and Negative iff its bit 7 is set. -/
theorem adc_adds_with_carry (cpu : CPU) (mode : AddressingMode) (addr v : Nat)
    (h1 : get_operand_address cpu mode = Except.ok addr)
    (h2 : mem_read cpu addr = Except.ok v) :
    ∃ cpu2, adc cpu mode = Except.ok cpu2 ∧
      cpu2.register_a =
        (cpu.register_a + v +
          (if containsFlag cpu.status StatusFlags.CARRY then 1 else 0)) % 256 ∧
      containsFlag cpu2.status StatusFlags.CARRY =
        decide (255 < cpu.register_a + v +
          (if containsFlag cpu.status StatusFlags.CARRY then 1 else 0)) ∧
      containsFlag cpu2.status StatusFlags.ZERO = decide (cpu2.register_a = 0) ∧
      containsFlag cpu2.status StatusFlags.NEGATIVE =
        decide (cpu2.register_a &&& 0b10000000 ≠ 0) := by
  by_cases hc : 255 < cpu.register_a + v +
      (if containsFlag cpu.status StatusFlags.CARRY then 1 else 0)
  · refine ⟨update_zero_and_negative_flags
        { set_carry_flag cpu with
          register_a := (cpu.register_a + v +
            (if containsFlag cpu.status StatusFlags.CARRY then 1 else 0)) % 256 },
      ?_, rfl, ?_, ?_, ?_⟩
    · simp only [adc, h1, except_bind_ok, h2, except_pure, gt_iff_lt, if_pos hc]
    · have hb : (update_zero_and_negative_flags
          { set_carry_flag cpu with
            register_a := (cpu.register_a + v +
              (if containsFlag cpu.status StatusFlags.CARRY then 1 else 0)) % 256 }).status &&&
            StatusFlags.CARRY = StatusFlags.CARRY := by
        rw [uznf_other_bit _ (by decide) (by decide) (by decide) (by decide)]
        exact or_and_cancel cpu.status StatusFlags.CARRY
      rw [containsFlag_of_and_eq _ _ hb]
      simp [hc]
    · exact containsFlag_iff_bit (by decide) _ (uznf_zero_bit _)
    · exact containsFlag_iff_bit (by decide) _ (uznf_negative_bit _)
  · refine ⟨update_zero_and_negative_flags
        { unset_carry_flag cpu with
          register_a := (cpu.register_a + v +
            (if containsFlag cpu.status StatusFlags.CARRY then 1 else 0)) % 256 },
      ?_, rfl, ?_, ?_, ?_⟩
    · simp only [adc, h1, except_bind_ok, h2, except_pure, gt_iff_lt, if_neg hc]
    · have hb : (update_zero_and_negative_flags
          { unset_carry_flag cpu with
            register_a := (cpu.register_a + v +
              (if containsFlag cpu.status StatusFlags.CARRY then 1 else 0)) % 256 }).status &&&
            StatusFlags.CARRY = 0 := by
        rw [uznf_other_bit _ (by decide) (by decide) (by decide) (by decide)]
        show (cpu.status &&& (StatusFlags.CARRY ^^^ 0xFF)) &&& StatusFlags.CARRY = 0
        rw [and_right_comm, (by decide : (StatusFlags.CARRY ^^^ 0xFF) &&& StatusFlags.CARRY = 0),
          Nat.and_zero]
      rw [containsFlag_false_of_and_zero hb (by decide)]
      simp [hc]
    · exact containsFlag_iff_bit (by decide) _ (uznf_zero_bit _)
    · exact containsFlag_iff_bit (by decide) _ (uznf_negative_bit _)

/-- C5 witness: at the concrete state cpuAdc — accumulator 0x50,
Immediate operand byte 0x50, Carry clear — the result accumulator is
0xA0 and the Carry flag stays clear. -/
theorem adc_adds_with_carry_witness :
    get_operand_address cpuAdc AddressingMode.Immediate = Except.ok 0 ∧
    mem_read cpuAdc 0 = Except.ok 0x50 ∧
    ∃ cpu2, adc cpuAdc AddressingMode.Immediate = Except.ok cpu2 ∧
      cpu2.register_a = 0xA0 ∧
      containsFlag cpu2.status StatusFlags.CARRY = false := by
  refine ⟨rfl, rfl, ?_⟩
  obtain ⟨cpu2, hrun, ha, hcarry, hz, hn⟩ :=
    adc_adds_with_carry cpuAdc AddressingMode.Immediate 0 0x50 rfl rfl
  refine ⟨cpu2, hrun, ?_, ?_⟩
  · rw [ha]
    decide
  · rw [hcarry]
    decide

theorem mem_write_u16_spec (cpu : CPU) (addr val : Nat)
    (h1 : addr < MEMSIZE) (h2 : addr + 1 < MEMSIZE) :
    ∃ cpu2, mem_write_u16 cpu addr val = Except.ok cpu2 ∧
      cpu2.memory addr = val % 256 ∧
      cpu2.memory (addr + 1) = (val >>> 8) % 256 ∧
      (∀ i, i ≠ addr → i ≠ addr + 1 → cpu2.memory i = cpu.memory i) ∧
      cpu2.register_a = cpu.register_a ∧ cpu2.register_x = cpu.register_x ∧
      cpu2.register_y = cpu.register_y ∧ cpu2.status = cpu.status ∧
      cpu2.program_counter = cpu.program_counter := by
  have hw1 : mem_write cpu addr ((val &&& 0xFF) % 256) =
      Except.ok { cpu with
        memory := fun i => if i = addr then (val &&& 0xFF) % 256 else cpu.memory i } := by
    unfold mem_write
    rw [if_pos h1]
  have hw2 : mem_write
      { cpu with memory := fun i => if i = addr then (val &&& 0xFF) % 256 else cpu.memory i }
      (addr + 1) ((val >>> 8) % 256) =
      Except.ok { cpu with
        memory := fun i => if i = addr + 1 then (val >>> 8) % 256
          else if i = addr then (val &&& 0xFF) % 256 else cpu.memory i } := by
    unfold mem_write
    rw [if_pos h2]
  refine ⟨{ cpu with
      memory := fun i => if i = addr + 1 then (val >>> 8) % 256
        else if i = addr then (val &&& 0xFF) % 256 else cpu.memory i },
    ?_, ?_, ?_, ?_, rfl, rfl, rfl, rfl, rfl⟩
  · simp only [mem_write_u16, hw1, except_bind_ok, hw2]
  · show (if addr = addr + 1 then (val >>> 8) % 256
      else if addr = addr then (val &&& 0xFF) % 256 else cpu.memory addr) = val % 256
    rw [if_neg (by omega), if_pos rfl, and_255_eq_mod]
    omega
  · show (if addr + 1 = addr + 1 then (val >>> 8) % 256
      else if addr + 1 = addr then (val &&& 0xFF) % 256 else cpu.memory (addr + 1)) =
      (val >>> 8) % 256
    rw [if_pos rfl]
  · intro i hi1 hi2
    show (if i = addr + 1 then (val >>> 8) % 256
      else if i = addr then (val &&& 0xFF) % 256 else cpu.memory i) = cpu.memory i
    rw [if_neg hi2, if_neg hi1]

/-- C7: for every address addr up to 0xFFFD and every 16-bit value val,
writeWord stores the low byte of val at addr and the high byte at
addr + 1 (little-endian), and readWord at addr then returns val. -/
theorem mem_u16_roundtrip (cpu : CPU) (addr val : Nat)
    (haddr : addr ≤ 0xFFFD) (hval : val < 0x10000) :
    ∃ cpu2, mem_write_u16 cpu addr val = Except.ok cpu2 ∧
      cpu2.memory addr = val % 256 ∧
      cpu2.memory (addr + 1) = val / 256 ∧
      mem_read_u16 cpu2 addr = Except.ok val := by
  have h1 : addr < MEMSIZE := by
    unfold MEMSIZE
    omega
  have h2 : addr + 1 < MEMSIZE := by
    unfold MEMSIZE
    omega
  obtain ⟨cpu2, hw, hA, hB, _⟩ := mem_write_u16_spec cpu addr val h1 h2
  have hB2 : cpu2.memory (addr + 1) = val / 256 := by
    rw [hB, shiftRight8_eq_div]
    omega
  refine ⟨cpu2, hw, hA, hB2, ?_⟩
  simp only [mem_read_u16, mem_read_lt h1, mem_read_lt h2, except_bind_ok, except_pure,
    hA, hB2]
  rw [shiftLeft8_or_add (by omega)]
  exact congrArg Except.ok (Nat.div_add_mod val 256)

/-- C7 witness at address 0x10 with value 0xABCD on the fresh CPU. -/
theorem mem_u16_roundtrip_witness :
    (0x10 : Nat) ≤ 0xFFFD ∧ (0xABCD : Nat) < 0x10000 ∧
    ∃ cpu2, mem_write_u16 CPU.new 0x10 0xABCD = Except.ok cpu2 ∧
      cpu2.memory 0x10 = 0xCD ∧ cpu2.memory 0x11 = 0xAB ∧
      mem_read_u16 cpu2 0x10 = Except.ok 0xABCD := by
  refine ⟨by decide, by decide, ?_⟩
  obtain ⟨cpu2, hw, hA, hB, hr⟩ := mem_u16_roundtrip CPU.new 0x10 0xABCD (by decide) (by decide)
  exact ⟨cpu2, hw, by rw [hA], by rw [hB], hr⟩

/-- C8: for every CPU state, reset zeroes the accumulator and index-X,
restores the default status byte 0b100100, and sets the program counter
to the little-endian word stored at 0xFFFC, while index-Y and every
memory byte are left unchanged. -/
theorem reset_reinitializes (cpu : CPU) :
    reset cpu = Except.ok
      { register_a := 0
        register_x := 0
        register_y := cpu.register_y
        status := 0b100100
        program_counter := (cpu.memory 0xFFFD <<< 8) ||| cpu.memory 0xFFFC
        memory := cpu.memory } := by
  have hA : (0xFFFC : Nat) < MEMSIZE := by decide
  have hB : (0xFFFC + 1 : Nat) < MEMSIZE := by decide
  simp only [reset, mem_read_u16, mem_read_lt hA, mem_read_lt hB, except_bind_ok,
    except_pure]

/-- C10: load succeeds exactly for program images of at most 0x7FFF
bytes. On success it copies the image into memory starting at 0x8000
(the bytes later overwritten by the reset-vector write excepted), writes
0x8000 little-endian at 0xFFFC, and leaves the registers unchanged; for
any longer image the destination slice exceeds the memory array and the
operation faults. -/
theorem load_copies_image_with_bound (cpu : CPU) (program : List Nat) :
    (program.length ≤ 0x7FFF →
      ∃ cpu2, load cpu program = Except.ok cpu2 ∧
        (∀ a, 0x8000 ≤ a → a < 0x8000 + program.length → a ≠ 0xFFFC → a ≠ 0xFFFD →
          cpu2.memory a = program.getD (a - 0x8000) 0) ∧
        cpu2.memory 0xFFFC = 0x00 ∧ cpu2.memory 0xFFFD = 0x80 ∧
        mem_read_u16 cpu2 0xFFFC = Except.ok 0x8000 ∧
        cpu2.register_a = cpu.register_a ∧ cpu2.register_x = cpu.register_x ∧
        cpu2.register_y = cpu.register_y ∧ cpu2.status = cpu.status ∧
        cpu2.program_counter = cpu.program_counter) ∧
    (0x7FFF < program.length →
      load cpu program = Except.error (Fault.outOfBounds (0x8000 + program.length))) := by
  constructor
  · intro hlen
    have hle : 0x8000 + program.length ≤ MEMSIZE := by
      unfold MEMSIZE
      omega
    have hload : load cpu program =
        mem_write_u16 { cpu with memory := copySlice cpu.memory 0x8000 program }
          0xFFFC 0x8000 := by
      unfold load
      rw [if_pos hle]
    obtain ⟨cpu2, hw, hA, hB, hframe, hra, hrx, hry, hst, hpc⟩ :=
      mem_write_u16_spec { cpu with memory := copySlice cpu.memory 0x8000 program }
        0xFFFC 0x8000 (by decide) (by decide)
    refine ⟨cpu2, by rw [hload, hw], ?_, ?_, ?_, ?_, hra, hrx, hry, hst, hpc⟩
    · intro a ha1 ha2 hne1 hne2
      have hne2a : a ≠ 0xFFFC + 1 := by omega
      rw [hframe _ hne1 hne2a]
      show copySlice cpu.memory 0x8000 program a = program.getD (a - 0x8000) 0
      unfold copySlice
      rw [if_pos ⟨ha1, ha2⟩]
    · rw [hA]
    · have h1 : (0xFFFC : Nat) + 1 = 0xFFFD := rfl
      rw [← h1, hB]
      decide
    · simp only [mem_read_u16, mem_read_lt (by decide : (0xFFFC : Nat) < MEMSIZE),
        mem_read_lt (by decide : (0xFFFC + 1 : Nat) < MEMSIZE), except_bind_ok,
        except_pure, hA, hB]
      exact congrArg Except.ok (by decide)
  · intro hgt
    unfold load
    rw [if_neg (by unfold MEMSIZE; omega)]

/-- C10 witness: a three-byte image loads at 0x8000 with the reset
vector set, and an image of 0x8000 bytes faults. -/
theorem load_copies_image_with_bound_witness :
    (([0xA9, 0x05, 0x00] : List Nat).length ≤ 0x7FFF ∧
      ∃ cpu2, load CPU.new [0xA9, 0x05, 0x00] = Except.ok cpu2 ∧
        cpu2.memory 0x8000 = 0xA9 ∧ cpu2.memory 0x8001 = 0x05 ∧
        mem_read_u16 cpu2 0xFFFC = Except.ok 0x8000) ∧
    (0x7FFF < (List.replicate 0x8000 (0 : Nat)).length ∧
      load CPU.new (List.replicate 0x8000 (0 : Nat)) =
        Except.error (Fault.outOfBounds (0x8000 + (List.replicate 0x8000 (0 : Nat)).length))) := by
  constructor
  · refine ⟨by decide, ?_⟩
    obtain ⟨cpu2, hok, hcopy, hfc, hfd, hread, _⟩ :=
      (load_copies_image_with_bound CPU.new [0xA9, 0x05, 0x00]).1 (by decide)
    refine ⟨cpu2, hok, ?_, ?_, hread⟩
    · exact (hcopy 0x8000 (by decide) (by decide) (by decide) (by decide)).trans (by decide)
    · exact (hcopy 0x8001 (by decide) (by decide) (by decide) (by decide)).trans (by decide)
  · have hlen : 0x7FFF < (List.replicate 0x8000 (0 : Nat)).length := by
      rw [List.length_replicate]
      norm_num
    exact ⟨hlen, (load_copies_image_with_bound CPU.new (List.replicate 0x8000 0)).2 hlen⟩

end Emu
